import Mathlib

/-!
# Verification of the `next-api` request rate limiter and CORS response decoration

Shallow embedding of `src/route-wrappers/withRateLimit.ts` and the parts of
the `NextResponse` class it relies on — the live `@/response` module
(`src/response/index.ts`), whose `CorsInit` consumes the static `CorsOptions`
(resetting it to `undefined` after computing the CORS headers of the response
being built).

Modelling conventions:
* JavaScript `Map<string, number>` becomes an association list
  `List (String × Nat)` with first-match lookup and in-place update.
* The module-level mutable variables `timeout` and `list`, together with the
  class-level static `NextResponse.CorsOptions`, form an explicit state record
  `GState` threaded through the functions.
* A pending `setTimeout` handle is modelled as `Option Timer` (the source holds
  at most one handle in the single module-level `timeout` variable); firing the
  timer is the explicit transition `fireTimer`.
* JavaScript truthiness of the optional arguments is made explicit
  (`0`, `''`, `undefined`, `null`, `NaN` are falsy; `Infinity` is a distinct
  sentinel of the `max` argument).
* Observable actions (calling `next`, resolving the request ip, cancelling and
  scheduling timers, writing the quota map, invoking `onQuotaReached`,
  constructing the rejection response) are recorded in an event trace.
* `process.env.ALLOWED_API_ORIGINS` is passed as an explicit `env` parameter.
-/

namespace NextApi

/-- An opaque inbound request; only its identity matters to the limiter. -/
structure Request where
  id : Nat
deriving DecidableEq, Repr

/-- Response headers, as an association list (`Headers.set` replaces the value
of an existing name, otherwise appends; the header names used here never clash
up to case, so a case-sensitive model is adequate). -/
abbrev HeaderList := List (String × String)

/-- First-match lookup in an association list of headers. -/
def hLookup (h : HeaderList) (k : String) : Option String :=
  match h with
  | [] => none
  | (k', v) :: t => if k' = k then some v else hLookup t k

/-- `Headers.set`: replace the value of an existing name, otherwise append. -/
def headersSet (h : HeaderList) (k v : String) : HeaderList :=
  match h with
  | [] => [(k, v)]
  | (k', v') :: t => if k' = k then (k, v) :: t else (k', v') :: headersSet t k v

/-- The quota map `list : Map<string, number>` of `withRateLimit.ts`. -/
abbrev QuotaMap := List (String × Nat)

/-- `Map.get`. -/
def qGet (m : QuotaMap) (k : String) : Option Nat :=
  match m with
  | [] => none
  | (k', v) :: t => if k' = k then some v else qGet t k

/-- `Map.set`. -/
def qSet (m : QuotaMap) (k : String) (v : Nat) : QuotaMap :=
  match m with
  | [] => [(k, v)]
  | (k', v') :: t => if k' = k then (k, v) :: t else (k', v') :: qSet t k v

/-- `Map.delete`: every binding for the key is removed (a `Map` holds at most
one binding per key, so on reachable states this is the single entry). -/
def qDelete (m : QuotaMap) (k : String) : QuotaMap :=
  match m with
  | [] => []
  | (k', v') :: t => if k' = k then qDelete t k else (k', v') :: qDelete t k

/-- JavaScript `a || b` on optional strings (`undefined`, `null` and the empty
string are falsy). -/
def orFalsy (a b : Option String) : Option String :=
  match a with
  | some s => if s = "" then b else some s
  | none => b

/-- The `origin` field of `Api.CORS.Policy`: `string | string[] | null`. -/
inductive OriginVal where
  | str (s : String)
  | arr (l : List String)
deriving DecidableEq, Repr

/-- `Api.CORS.Policy` (src/types/api.ts): every field optional. -/
structure CORSPolicy where
  requestOrigin : Option String := none
  origin : Option OriginVal := none
  methods : Option (List String) := none
  headers : Option (List String) := none
  exposedHeaders : Option (List String) := none
  credentials : Option Bool := none
deriving DecidableEq, Repr

/-- The pending eviction timer: which client entry the scheduled callback will
delete, and the absolute time (ms) at which it fires. -/
structure Timer where
  clientId : String
  fireAt : Nat
deriving DecidableEq, Repr

/-- The process-wide mutable state: the module-level `list` and `timeout` of
`withRateLimit.ts` plus the static `NextResponse.CorsOptions`.  The static
field is written by `NextResponse.cors` (always an object) and reset to
`undefined` by `CorsInit`, so `Option CORSPolicy` covers every reachable
value. -/
structure GState where
  list : QuotaMap := []
  timeout : Option Timer := none
  corsOptions : Option CORSPolicy := none
deriving DecidableEq, Repr

/-- The `max` argument: absent, the `Infinity` sentinel, or a number. -/
inductive MaxArg where
  | absent
  | infinity
  | num (n : Nat)
deriving DecidableEq, Repr

/-- The guard `! max || max === Infinity` of `withRateLimit`. -/
def MaxArg.noLimit : MaxArg → Bool
  | .absent => true
  | .infinity => true
  | .num n => n == 0

/-- Numeric value of `max` (only read on the limited path, where
`max = .num n` with `n ≠ 0`). -/
def MaxArg.toNat : MaxArg → Nat
  | .num n => n
  | _ => 0

/-- The `cors` argument: `true | Api.CORS.Policy`, optional. -/
inductive CorsArg where
  | none
  | isTrue
  | policy (p : CORSPolicy)
deriving DecidableEq, Repr

/-- Truthiness of the optional `inS` window argument (`0` is falsy). -/
def truthyNat (o : Option Nat) : Bool :=
  match o with
  | some n => n != 0
  | .none => false

/-- `removeTrailingSlash` (external `url-utils` collaborator): strips trailing
slash characters from a URL string. -/
def removeTrailingSlash (s : String) : String :=
  s.dropRightWhile (· = '/')

/-- `.replace( /\s/g, '' )`: remove every whitespace character. -/
def stripWhitespace (s : String) : String :=
  String.mk (s.data.filter (fun c => ¬ c.isWhitespace))

/-- `ResponseInit`: the `status` and `headers` fields (the only ones the code
under consideration reads or writes). -/
structure ResponseInit where
  status : Option Nat := none
  headers : HeaderList := []
deriving DecidableEq, Repr

/-- The value pair a `Response`/`NextResponse` is constructed from: its
`BodyInit` (here only `null` or a JSON string occurs) and its `ResponseInit`. -/
structure BuiltResponse where
  body : Option String := none
  init : Option ResponseInit := none
deriving DecidableEq, Repr

/-- `allowedOrigin.includes(x)`: substring test on a string (reachable only
when the string is the wildcard), membership on an array. -/
def originIncludes : OriginVal → String → Bool
  | .str s, x => decide (x.data <:+: s.data)
  | .arr l, x => l.contains x

/-- JavaScript `.toString()` of the allowed origin (arrays join with `,`). -/
def OriginVal.toJSString : OriginVal → String
  | .str s => s
  | .arr l => String.intercalate "," l

namespace NextResponse

/-- `NextResponse.CorsAllowedMethods` (defaults). -/
def CorsAllowedMethods : List String :=
  ["GET", "POST", "PUT", "PATCH", "DELETE", "OPTIONS", "HEAD"]

/-- `NextResponse.CorsAllowedHeaders` (defaults). -/
def CorsAllowedHeaders : List String :=
  ["Accept", "Accept-Version", "Authorization", "Content-Length", "Content-MD5",
   "Content-Type", "Date", "X-Api-Key", "X-Api-Version", "X-CSRF-Token",
   "X-Locale", "X-Requested-With"]

/-- `NextResponse.CorsExposedHeaders` (defaults). -/
def CorsExposedHeaders : List String :=
  ["Connection", "Retry-After", "Keep-Alive", "Date"]

/-- The exposed-header list `this.CorsExposedHeaders.concat(
options?.exposedHeaders || [] )` computed inside `CorsHeaders`. -/
def CorsHeadersExposeList (options : CORSPolicy) : List String :=
  CorsExposedHeaders ++ options.exposedHeaders.getD []

/-- The allowed-header list `this.CorsAllowedHeaders.concat(
options?.headers || [] )` computed inside `CorsHeaders`. -/
def CorsHeadersAllowList (options : CORSPolicy) : List String :=
  CorsAllowedHeaders ++ options.headers.getD []

/-- The `allowedOrigin` cascade at the top of `CorsHeaders`:
`options?.origin || ALLOWED_API_ORIGINS || '*'`, then the split/trim/
trailing-slash normalisation of a non-wildcard string, then the
`requestOrigin` reflection when it is allowed.  `env` is
`process.env.ALLOWED_API_ORIGINS`. -/
def CorsAllowedOrigin (env : Option String) (options : CORSPolicy) :
    OriginVal :=
  let wildCard := "*"
  let allowedOrigin0 : OriginVal :=
    match options.origin with
    | some (.str s) =>
        if s = "" then .str ((orFalsy env (some wildCard)).getD wildCard)
        else .str s
    | some (.arr l) => .arr l
    | none => .str ((orFalsy env (some wildCard)).getD wildCard)
  let allowedOrigin1 : OriginVal :=
    match allowedOrigin0 with
    | .str s =>
        if s = wildCard then .str s
        else .arr ((((stripWhitespace s).splitOn ",").filter (· ≠ "")).map
          removeTrailingSlash)
    | .arr l => .arr l
  match options.requestOrigin with
  | some ro =>
      if ro ≠ "" ∧
          (originIncludes allowedOrigin1 (removeTrailingSlash ro) = true ∨
            allowedOrigin1 = .str wildCard) then
        .str ro
      else allowedOrigin1
  | none => allowedOrigin1

/-- `NextResponse.CorsHeaders`: compute the CORS response headers on top of the
given base headers.  `env` is `process.env.ALLOWED_API_ORIGINS`. -/
def CorsHeaders (env : Option String) (options : CORSPolicy)
    (headers : HeaderList) : HeaderList :=
  let allowedMethods := options.methods.getD CorsAllowedMethods
  let corsHeaders := headersSet headers "Access-Control-Allow-Origin"
    (CorsAllowedOrigin env options).toJSString
  let corsHeaders :=
    match options.credentials with
    | some b => headersSet corsHeaders "Access-Control-Allow-Credentials"
        (if b then "true" else "false")
    | none => corsHeaders
  let allowdHeaders := CorsHeadersAllowList options
  let exposeHeaders := CorsHeadersExposeList options
  let corsHeaders :=
    if allowdHeaders.length > 0 then
      headersSet corsHeaders "Access-Control-Allow-Headers"
        (String.intercalate ", " allowdHeaders)
    else corsHeaders
  let corsHeaders :=
    if exposeHeaders.length > 0 then
      headersSet corsHeaders "Access-Control-Expose-Headers"
        (String.intercalate ", " exposeHeaders)
    else corsHeaders
  if allowedMethods.length > 0 then
    headersSet corsHeaders "Access-Control-Allow-Methods"
      (String.intercalate ", " allowedMethods)
  else corsHeaders

/-- `NextResponse.cors( request, cors )` (src/response/index.ts): with
`requestOrigin = request?.headers.get( 'origin' ) || undefined`, assign the
static `CorsOptions` to `{ ...cors, requestOrigin }` — the request's origin
header always overwrites any `requestOrigin` of the passed policy. -/
def corsAssign (reqOrigin : Option String) (cors : Option CORSPolicy) :
    Option CORSPolicy :=
  some { cors.getD {} with requestOrigin := orFalsy reqOrigin none }

/-- `NextResponse.CorsInit( init )` (src/response/index.ts): the given init
unchanged when the static `CorsOptions` is unset; otherwise compute
`{ ...init, headers: CorsHeaders(...) }` and reset `CorsOptions` to
`undefined` so the next usage does not inherit the options.  Returns the new
static `CorsOptions` together with the resulting init. -/
def CorsInit (env : Option String) (corsOptions : Option CORSPolicy)
    (init : Option ResponseInit) :
    Option CORSPolicy × Option ResponseInit :=
  match corsOptions with
  | none => (none, init)
  | some opts =>
      (none,
       some { status := init.bind (·.status),
              headers := CorsHeaders env opts ((init.map (·.headers)).getD []) })

/-- The props object taken by the `NextResponse` constructor.  `reqOrigin`
stands for `request?.headers.get( 'origin' )`. -/
structure Props where
  body : Option String := none
  init : Option ResponseInit := none
  reqOrigin : Option String := none
  cors : CorsArg := .none
deriving Repr

/-- The `NextResponse` constructor: when the `cors` prop is truthy, assign the
static `CorsOptions` (an object policy is passed through, the boolean `true`
is passed as `undefined`); then build the response from `CorsInit( init )`,
which consumes the static options.  Returns the post-construction static
`CorsOptions` and the response. -/
def new (env : Option String) (corsOptions : Option CORSPolicy)
    (props : Props) : Option CORSPolicy × BuiltResponse :=
  let corsOptions' :=
    match props.cors with
    | .none => corsOptions
    | .isTrue => corsAssign props.reqOrigin none
    | .policy p => corsAssign props.reqOrigin (some p)
  let initPair := CorsInit env corsOptions' props.init
  (initPair.1, { body := props.body, init := initPair.2 })

/-- `NextResponse.json( body, init )`: delegates to the framework `json` with
`CorsInit( init )`; modelled as the body string plus the decorated init,
paired with the post-call static `CorsOptions`. -/
def json (env : Option String) (corsOptions : Option CORSPolicy)
    (body : String) (init : Option ResponseInit) :
    Option CORSPolicy × BuiltResponse :=
  let initPair := CorsInit env corsOptions init
  (initPair.1, { body := some body, init := initPair.2 })

/-- `NextResponse.successJson( body, init )`: wraps the body into
`{ message }` and delegates to `json`. -/
def successJson (env : Option String) (corsOptions : Option CORSPolicy)
    (body : String) (init : Option ResponseInit) :
    Option CORSPolicy × BuiltResponse :=
  json env corsOptions ("\x7b \"message\": " ++ body ++ " \x7d") init

/-- `NextResponse.errorJson( exception, init )`: resolve the status as
`init.status ?? exception.status ?? 500`, then delegate to `json` with the
serialized error and that status. -/
def errorJson (env : Option String) (corsOptions : Option CORSPolicy)
    (excMessage : String) (excStatus : Option Nat) (init : Option ResponseInit) :
    Option CORSPolicy × BuiltResponse :=
  let status := ((init.bind (·.status)).or excStatus).getD 500
  let init' : ResponseInit :=
    { status := some status, headers := (init.map (·.headers)).getD [] }
  json env corsOptions excMessage (some init')

/-- `NextResponse.emptyBody( init )`: `errorJson` with the fixed
`Empty, invalid or locked Request Body` exception and status 422. -/
def emptyBody (env : Option String) (corsOptions : Option CORSPolicy)
    (init : Option ResponseInit) : Option CORSPolicy × BuiltResponse :=
  errorJson env corsOptions "Empty, invalid or locked Request Body" (some 422)
    init

/-- `NextResponse.stream( stream, init )`: a `Response` whose init is
`CorsInit( init )`; the streamed body is abstracted to a marker string. -/
def stream (env : Option String) (corsOptions : Option CORSPolicy)
    (init : Option ResponseInit) : Option CORSPolicy × BuiltResponse :=
  let initPair := CorsInit env corsOptions init
  (initPair.1, { body := some "<stream>", init := initPair.2 })

end NextResponse

/-- Observable actions of one `withRateLimit` call, in program order. -/
inductive Event where
  /-- `next( request )` invoked (with the original request). -/
  | nextCall (req : Request)
  /-- `await getRequestIp( request )` performed. -/
  | resolveIp
  /-- `clearTimeout( timeout )` on the previously pending timer. -/
  | clearTimer (t : Timer)
  /-- `setTimeout( ... , inS * 1000 )` arming the eviction of `clientId`. -/
  | scheduleTimer (clientId : String) (fireAt : Nat)
  /-- `list.set( requestIp, quota )`. -/
  | setQuota (clientId : String) (quota : Nat)
  /-- `await onQuotaReached( requestIp, list )` with the map it observes. -/
  | quotaReached (clientId : String) (list : QuotaMap)
  /-- `new NextResponse( ... )` built for the rejection. -/
  | constructResponse
deriving DecidableEq, Repr

/-- Outcome of one `withRateLimit` call: `next`'s result, or the constructed
429 rejection. -/
inductive RLResult where
  | next (req : Request)
  | rejected (resp : BuiltResponse)
deriving DecidableEq, Repr

/-- `true` exactly on the admitted/no-limit outcome. -/
def RLResult.isNext : RLResult → Bool
  | .next _ => true
  | .rejected _ => false

/-- The status of the outcome (`none` when `next` was invoked). -/
def RLResult.status : RLResult → Option Nat
  | .next _ => none
  | .rejected resp => (resp.init.bind (·.status))

/-- The headers of the outcome (`[]` when `next` was invoked). -/
def RLResult.headers : RLResult → HeaderList
  | .next _ => []
  | .rejected resp => ((resp.init.map (·.headers)).getD [])

/-- `await getRequestIp( request ) || '::1'`: the client identifier, with the
process-wide fallback for an unresolved or empty ip. -/
def resolvedClient (resolvedIp : Option String) : String :=
  (orFalsy resolvedIp (some "::1")).getD "::1"

/-- `withRateLimit( request, next, max, inS, cors, onQuotaReached )`.

`env` is `process.env.ALLOWED_API_ORIGINS`, `now` the current time in ms,
`resolvedIp` the value of `await getRequestIp( request )`, `reqOrigin` the
request's `Origin` header, and `hasOnQuotaReached` whether the optional
callback was supplied (the callback itself only observes state, so its
invocation is recorded as a trace event).  Returns the post-call global
state, the event trace, and the outcome. -/
def withRateLimit (env : Option String) (now : Nat) (req : Request)
    (resolvedIp : Option String) (reqOrigin : Option String) (max : MaxArg)
    (inS : Option Nat) (cors : CorsArg) (hasOnQuotaReached : Bool)
    (s : GState) : GState × List Event × RLResult :=
  if max.noLimit then (s, [.nextCall req], .next req)
  else
    let requestIp := resolvedClient resolvedIp
    let timerEvents : List Event :=
      if truthyNat inS then
        (match s.timeout with
         | some t => [.clearTimer t]
         | none => []) ++
        [.scheduleTimer requestIp (now + inS.getD 0 * 1000)]
      else []
    let s1 : GState :=
      if truthyNat inS then
        { s with timeout := some ⟨requestIp, now + inS.getD 0 * 1000⟩ }
      else s
    let quota := (qGet s1.list requestIp).getD 0 + 1
    let s2 : GState := { s1 with list := qSet s1.list requestIp quota }
    let events := [.resolveIp] ++ timerEvents ++ [.setQuota requestIp quota]
    if quota ≤ max.toNat then
      (s2, events ++ [.nextCall req], .next req)
    else
      let responseInit : ResponseInit :=
        { status := some 429,
          headers :=
            if truthyNat inS then
              [("Retry-After", toString (inS.getD 0)),
               ("X-Max-Requests", toString max.toNat)]
            else [] }
      let corsOptions : Option CORSPolicy :=
        match cors with
        | .none => none
        | .isTrue => some { exposedHeaders := some ["X-Max-Requests"] }
        | .policy p =>
            some { p with
                   exposedHeaders := some
                     (p.exposedHeaders.getD [] ++ ["X-Max-Requests"]) }
      let events :=
        events ++
          (if hasOnQuotaReached then [.quotaReached requestIp s2.list] else [])
      let (corsStatic, resp) := NextResponse.new env s2.corsOptions
        { body := none, init := some responseInit, reqOrigin := reqOrigin,
          cors := match corsOptions with
                  | some p => .policy p
                  | none => .none }
      ({ s2 with corsOptions := corsStatic }, events ++ [.constructResponse],
       .rejected resp)

/-- The scheduled callback `() => list.delete( requestIp )` firing: deletes
the entry the pending timer is keyed to; no timer remains pending. -/
def fireTimer (s : GState) : GState :=
  match s.timeout with
  | none => s
  | some t => { s with list := qDelete s.list t.clientId, timeout := none }

/-- `withRateLimit` with the fallibility of the collaborators made explicit:
`next` and `onQuotaReached` may throw (return `.error`); `withRateLimit`
itself installs no handler, so a collaborator's error is returned unchanged
while the state mutations already performed persist.  (`Err` is the abstract
exception type; the response-shaping is as in `withRateLimit`.) -/
def withRateLimitE (Err : Type) (env : Option String) (now : Nat)
    (req : Request) (resolvedIp : Option String) (reqOrigin : Option String)
    (max : MaxArg) (inS : Option Nat) (cors : CorsArg)
    (next : Request → Except Err BuiltResponse)
    (onQuotaReached : Option (String → QuotaMap → Except Err Unit))
    (s : GState) : GState × Except Err BuiltResponse :=
  if max.noLimit then (s, next req)
  else
    let requestIp := resolvedClient resolvedIp
    let s1 : GState :=
      if truthyNat inS then
        { s with timeout := some ⟨requestIp, now + inS.getD 0 * 1000⟩ }
      else s
    let quota := (qGet s1.list requestIp).getD 0 + 1
    let s2 : GState := { s1 with list := qSet s1.list requestIp quota }
    if quota ≤ max.toNat then
      (s2, next req)
    else
      let responseInit : ResponseInit :=
        { status := some 429,
          headers :=
            if truthyNat inS then
              [("Retry-After", toString (inS.getD 0)),
               ("X-Max-Requests", toString max.toNat)]
            else [] }
      let corsOptions : Option CORSPolicy :=
        match cors with
        | .none => none
        | .isTrue => some { exposedHeaders := some ["X-Max-Requests"] }
        | .policy p =>
            some { p with
                   exposedHeaders := some
                     (p.exposedHeaders.getD [] ++ ["X-Max-Requests"]) }
      match onQuotaReached with
      | some f =>
          match f requestIp s2.list with
          | .error e => (s2, .error e)
          | .ok _ =>
              let (corsStatic, resp) := NextResponse.new env s2.corsOptions
                { body := none, init := some responseInit,
                  reqOrigin := reqOrigin,
                  cors := match corsOptions with
                          | some p => .policy p
                          | none => .none }
              ({ s2 with corsOptions := corsStatic }, .ok resp)
      | none =>
          let (corsStatic, resp) := NextResponse.new env s2.corsOptions
            { body := none, init := some responseInit, reqOrigin := reqOrigin,
              cors := match corsOptions with
                      | some p => .policy p
                      | none => .none }
          ({ s2 with corsOptions := corsStatic }, .ok resp)

/-- `true` exactly on the `onQuotaReached` invocation event. -/
def Event.isQuotaReached : Event → Bool
  | .quotaReached _ _ => true
  | _ => false

/-- `true` exactly on the timer-management events (`clearTimeout`,
`setTimeout`). -/
def Event.isTimerEvent : Event → Bool
  | .clearTimer _ => true
  | .scheduleTimer _ _ => true
  | _ => false

/-- The cancel-then-schedule timer events a call with a truthy window emits,
given the previously pending timer. -/
def timerTrace (pending : Option Timer) (clientId : String) (fireAt : Nat) :
    List Event :=
  (match pending with
   | some t => [.clearTimer t]
   | none => []) ++ [.scheduleTimer clientId fireAt]

/-- One call of the C1 scenario: a fixed client, `max = 5`,
`windowSeconds = 60`, no CORS, no callback. -/
def c1Call (s : GState) : GState × List Event × RLResult :=
  withRateLimit none 0 ⟨0⟩ (some "203.0.113.7") none (.num 5) (some 60) .none
    false s

/-- The global state after `k` calls of the C1 scenario, from the empty
initial state. -/
def c1State : Nat → GState
  | 0 => {}
  | k + 1 => (c1Call (c1State k)).1

/-! ## Basic lemmas about the map and header primitives -/

theorem qGet_qSet_self (m : QuotaMap) (k : String) (v : Nat) :
    qGet (qSet m k v) k = some v := by
  induction m with
  | nil => simp [qSet, qGet]
  | cons p t ih =>
      obtain ⟨a, b⟩ := p
      by_cases h : a = k
      · simp [qSet, qGet, h]
      · simp [qSet, qGet, h, ih]

theorem qGet_qSet_ne (m : QuotaMap) (k k' : String) (v : Nat)
    (h : k' ≠ k) : qGet (qSet m k v) k' = qGet m k' := by
  have h' : ¬(k = k') := fun e => h e.symm
  induction m with
  | nil => simp [qSet, qGet, h']
  | cons p t ih =>
      obtain ⟨a, b⟩ := p
      by_cases hp : a = k
      · subst hp; simp [qSet, qGet, h']
      · by_cases hp' : a = k'
        · subst hp'; simp [qSet, qGet, hp]
        · simp [qSet, qGet, hp, hp', ih]

theorem qGet_qDelete_self (m : QuotaMap) (k : String) :
    qGet (qDelete m k) k = none := by
  induction m with
  | nil => simp [qDelete, qGet]
  | cons p t ih =>
      obtain ⟨a, b⟩ := p
      by_cases h : a = k
      · simp [qDelete, h, ih]
      · simp [qDelete, qGet, h, ih]

theorem qGet_qDelete_ne (m : QuotaMap) (k k' : String) (h : k' ≠ k) :
    qGet (qDelete m k) k' = qGet m k' := by
  have h' : ¬(k = k') := fun e => h e.symm
  induction m with
  | nil => simp [qDelete, qGet]
  | cons p t ih =>
      obtain ⟨a, b⟩ := p
      by_cases hp : a = k
      · subst hp; simp [qDelete, qGet, h', ih]
      · by_cases hp' : a = k'
        · subst hp'; simp [qDelete, qGet, hp]
        · simp [qDelete, qGet, hp, hp', ih]

theorem hLookup_headersSet_self (h : HeaderList) (k v : String) :
    hLookup (headersSet h k v) k = some v := by
  induction h with
  | nil => simp [headersSet, hLookup]
  | cons p t ih =>
      obtain ⟨a, b⟩ := p
      by_cases hp : a = k
      · simp [headersSet, hLookup, hp]
      · simp [headersSet, hLookup, hp, ih]

theorem hLookup_headersSet_ne (h : HeaderList) (k k' v : String)
    (hne : k' ≠ k) : hLookup (headersSet h k v) k' = hLookup h k' := by
  have h' : ¬(k = k') := fun e => hne e.symm
  induction h with
  | nil => simp [headersSet, hLookup, h']
  | cons p t ih =>
      obtain ⟨a, b⟩ := p
      by_cases hp : a = k
      · subst hp; simp [headersSet, hLookup, h']
      · by_cases hp' : a = k'
        · subst hp'; simp [headersSet, hLookup, hp]
        · simp [headersSet, hLookup, hp, hp', ih]

theorem hLookup_headersSet_isSome (h : HeaderList) (k k' v : String)
    (hs : (hLookup h k').isSome = true) :
    (hLookup (headersSet h k v) k').isSome = true := by
  by_cases hk : k' = k
  · subst hk; simp [hLookup_headersSet_self]
  · rw [hLookup_headersSet_ne h k k' v hk]; exact hs

/-! ## Lemmas about `CorsHeaders` -/

theorem hLookup_CorsHeaders_other (env : Option String) (o : CORSPolicy)
    (h : HeaderList) (k : String)
    (h1 : k ≠ "Access-Control-Allow-Origin")
    (h2 : k ≠ "Access-Control-Allow-Credentials")
    (h3 : k ≠ "Access-Control-Allow-Headers")
    (h4 : k ≠ "Access-Control-Expose-Headers")
    (h5 : k ≠ "Access-Control-Allow-Methods") :
    hLookup (NextResponse.CorsHeaders env o h) k = hLookup h k := by
  unfold NextResponse.CorsHeaders
  cases hc : o.credentials <;>
    simp only [hc] <;>
    split_ifs <;>
    simp [hLookup_headersSet_ne, h1, h2, h3, h4, h5]

theorem hLookup_CorsHeaders_expose (env : Option String) (o : CORSPolicy)
    (h : HeaderList) :
    hLookup (NextResponse.CorsHeaders env o h) "Access-Control-Expose-Headers"
      = some (String.intercalate ", " (NextResponse.CorsHeadersExposeList o)) := by
  unfold NextResponse.CorsHeaders
  cases hc : o.credentials <;>
    simp only [hc] <;>
    split_ifs <;>
    simp_all [hLookup_headersSet_ne, hLookup_headersSet_self,
      NextResponse.CorsHeadersExposeList, NextResponse.CorsExposedHeaders]

theorem hLookup_CorsHeaders_allowOrigin (env : Option String) (o : CORSPolicy)
    (h : HeaderList) :
    (hLookup (NextResponse.CorsHeaders env o h)
      "Access-Control-Allow-Origin").isSome = true := by
  unfold NextResponse.CorsHeaders
  cases hc : o.credentials <;>
    simp only [hc] <;>
    split_ifs <;>
    simp [hLookup_headersSet_ne, hLookup_headersSet_self]

/-! ## Claim theorems -/

/-- C4: for every call to `withRateLimit` where `max` is absent or the
unlimited sentinel `Infinity`, `next` is invoked exactly once with the
original request and its result is returned, and no state is touched: the
quota map, the timer and the static CORS options are unchanged, no timer
event occurs, and the client id is not resolved (the trace is exactly the
single `next` invocation). -/
theorem withRateLimit_noLimit_frame :
    ∀ (env : Option String) (now : Nat) (req : Request)
      (ip ro : Option String) (inS : Option Nat) (cors : CorsArg)
      (onQ : Bool) (s : GState),
      withRateLimit env now req ip ro .absent inS cors onQ s
          = (s, [.nextCall req], .next req)
        ∧ withRateLimit env now req ip ro .infinity inS cors onQ s
          = (s, [.nextCall req], .next req) := by
  intro env now req ip ro inS cors onQ s
  constructor <;> simp [withRateLimit, MaxArg.noLimit]

/-- C9: a call with `max = 0` behaves exactly as if `max` were absent or
unlimited (`0` is falsy, so the `! max` guard returns `next( request )`
immediately): same result, same trace, and no state is touched. -/
theorem withRateLimit_maxZero_noLimit :
    ∀ (env : Option String) (now : Nat) (req : Request)
      (ip ro : Option String) (inS : Option Nat) (cors : CorsArg)
      (onQ : Bool) (s : GState),
      withRateLimit env now req ip ro (.num 0) inS cors onQ s
          = (s, [.nextCall req], .next req)
        ∧ withRateLimit env now req ip ro (.num 0) inS cors onQ s
          = withRateLimit env now req ip ro .absent inS cors onQ s := by
  intro env now req ip ro inS cors onQ s
  constructor <;> simp [withRateLimit, MaxArg.noLimit]

/-! ## The C1 scenario: a single client, `max = 5`, `windowSeconds = 60` -/

theorem c1Call_spec (s : GState) :
    (c1Call s).1.list
        = qSet s.list "203.0.113.7" ((qGet s.list "203.0.113.7").getD 0 + 1)
      ∧ ((qGet s.list "203.0.113.7").getD 0 + 1 ≤ 5 →
          (c1Call s).2.2 = .next ⟨0⟩)
      ∧ (¬ ((qGet s.list "203.0.113.7").getD 0 + 1 ≤ 5) →
          (c1Call s).2.2.status = some 429)
      ∧ ((c1Call s).2.2.isNext = true ↔
          (qGet s.list "203.0.113.7").getD 0 + 1 ≤ 5) := by
  unfold c1Call withRateLimit
  simp [MaxArg.noLimit, MaxArg.toNat, resolvedClient, orFalsy, truthyNat]
  split_ifs with hq
  · simp [RLResult.status, RLResult.isNext]
    omega
  · cases hco : s.corsOptions <;>
      simp [RLResult.status, RLResult.isNext, NextResponse.new,
        NextResponse.CorsInit, hco] <;>
      omega

theorem c1State_lookup (k : Nat) :
    qGet (c1State k).list "203.0.113.7" = (if k = 0 then none else some k) := by
  induction k with
  | zero => simp [c1State, qGet]
  | succ n ih =>
      have hstep := (c1Call_spec (c1State n)).1
      simp only [c1State, hstep, qGet_qSet_self, ih]
      cases n <;> simp

/-- C1: starting from the empty quota map, for a single client with `max = 5`
and `windowSeconds = 60`: after `k` calls the client's count is exactly `k`
(each call increments it by one, initialising to 1 when absent, on admitted
and on rejected calls alike); the `k+1`-st call invokes `next` and returns
its result exactly when `k + 1 ≤ 5`, so the first five calls admit and the
sixth and every later call rejects with status 429; admission is decided by
the comparison `new count ≤ max`. -/
theorem withRateLimit_fixed_window_counting :
    ∀ k : Nat,
      qGet (c1State k).list "203.0.113.7" = (if k = 0 then none else some k)
        ∧ (if k + 1 ≤ 5 then (c1Call (c1State k)).2.2 = RLResult.next ⟨0⟩
           else (c1Call (c1State k)).2.2.status = some 429)
        ∧ (∀ s : GState, qGet (c1Call s).1.list "203.0.113.7"
             = some ((qGet s.list "203.0.113.7").getD 0 + 1))
        ∧ (∀ s : GState, ((c1Call s).2.2.isNext = true ↔
             (qGet s.list "203.0.113.7").getD 0 + 1 ≤ 5)) := by
  intro k
  have h := c1Call_spec (c1State k)
  have hcount : (qGet (c1State k).list "203.0.113.7").getD 0 + 1 = k + 1 := by
    rw [c1State_lookup k]; cases k <;> simp
  refine ⟨c1State_lookup k, ?_, ?_, ?_⟩
  · by_cases hk : k + 1 ≤ 5
    · rw [if_pos hk]; exact h.2.1 (by omega)
    · rw [if_neg hk]; exact h.2.2.1 (by omega)
  · intro s; rw [(c1Call_spec s).1, qGet_qSet_self]
  · intro s; exact (c1Call_spec s).2.2.2

/-! ## Timer lemmas -/

theorem wrl_timeout_truthy (env : Option String) (now : Nat) (req : Request)
    (ip ro : Option String) (max : MaxArg) (inS : Option Nat) (cors : CorsArg)
    (onQ : Bool) (s : GState) (hmax : max.noLimit = false)
    (hins : truthyNat inS = true) :
    (withRateLimit env now req ip ro max inS cors onQ s).1.timeout
      = some ⟨resolvedClient ip, now + inS.getD 0 * 1000⟩ := by
  unfold withRateLimit
  simp only [hmax, hins, Bool.false_eq_true, if_false, if_true]
  split_ifs <;> simp

theorem wrl_timerTrace_truthy (env : Option String) (now : Nat)
    (req : Request) (ip ro : Option String) (max : MaxArg) (inS : Option Nat)
    (cors : CorsArg) (onQ : Bool) (s : GState) (hmax : max.noLimit = false)
    (hins : truthyNat inS = true) :
    (withRateLimit env now req ip ro max inS cors onQ s).2.1.filter
        Event.isTimerEvent
      = timerTrace s.timeout (resolvedClient ip) (now + inS.getD 0 * 1000) := by
  unfold withRateLimit
  simp only [hmax, hins, Bool.false_eq_true, if_false, if_true]
  cases hto : s.timeout <;>
    split_ifs <;>
    simp [Event.isTimerEvent, timerTrace, hto]

theorem wrl_frame_falsy (env : Option String) (now : Nat) (req : Request)
    (ip ro : Option String) (max : MaxArg) (inS : Option Nat) (cors : CorsArg)
    (onQ : Bool) (s : GState) (hins : truthyNat inS = false) :
    (withRateLimit env now req ip ro max inS cors onQ s).1.timeout = s.timeout
      ∧ (withRateLimit env now req ip ro max inS cors onQ s).2.1.filter
          Event.isTimerEvent = [] := by
  unfold withRateLimit
  cases hmax : max.noLimit
  · simp only [hmax, hins, Bool.false_eq_true, if_false]
    split_ifs <;> simp [Event.isTimerEvent]
  · simp [Event.isTimerEvent]

theorem fireTimer_spec (s : GState) (t : Timer) (ht : s.timeout = some t) :
    qGet (fireTimer s).list t.clientId = none
      ∧ (∀ c : String, c ≠ t.clientId →
          qGet (fireTimer s).list c = qGet s.list c)
      ∧ (fireTimer s).timeout = none := by
  unfold fireTimer
  rw [ht]
  exact ⟨qGet_qDelete_self _ _, fun c hc => qGet_qDelete_ne _ _ _ hc, rfl⟩

theorem wrl_other_clients (env : Option String) (now : Nat) (req : Request)
    (ip ro : Option String) (max : MaxArg) (inS : Option Nat) (cors : CorsArg)
    (onQ : Bool) (s : GState) (hmax : max.noLimit = false) (c : String)
    (hc : c ≠ resolvedClient ip) :
    qGet (withRateLimit env now req ip ro max inS cors onQ s).1.list c
      = qGet s.list c := by
  unfold withRateLimit
  simp only [hmax, Bool.false_eq_true, if_false]
  split_ifs <;> simp [qGet_qSet_ne _ _ _ _ hc]

theorem wrl_own_count (env : Option String) (now : Nat) (req : Request)
    (ip ro : Option String) (max : MaxArg) (inS : Option Nat) (cors : CorsArg)
    (onQ : Bool) (s : GState) (hmax : max.noLimit = false) :
    qGet (withRateLimit env now req ip ro max inS cors onQ s).1.list
        (resolvedClient ip)
      = some ((qGet s.list (resolvedClient ip)).getD 0 + 1) := by
  unfold withRateLimit
  simp only [hmax, Bool.false_eq_true, if_false]
  split_ifs <;> simp [qGet_qSet_self]

/-- C2 counterexample: a call with a truthy `windowSeconds` (60) but `max`
absent returns `next`'s result before the timer code runs: no timer is
cancelled or scheduled — refuting "every call to withRateLimit with a truthy
windowSeconds ... schedules exactly one new timer". -/
theorem withRateLimit_noLimit_no_timer_counterexample :
    (withRateLimit none 0 ⟨9⟩ (some "192.0.2.77") none .absent (some 60)
        .none false {}).1.timeout = none
      ∧ (withRateLimit none 0 ⟨9⟩ (some "192.0.2.77") none .absent (some 60)
          .none false {}).2.1.filter Event.isTimerEvent = [] := by
  exact ⟨rfl, rfl⟩

/-- C2 amended: a call with a truthy `windowSeconds` and limiting active
(`max` a nonzero finite number — calls with `max` absent, zero or unlimited
return before the timer code) first
cancels whatever timer was pending — regardless of which client armed it —
and then schedules exactly one new timer keyed to the current call's client
(the post-state holds exactly that one pending timer); the cancel event
precedes the schedule event and they are the only timer events of the call.
When the pending timer fires, it deletes only its own client's entry, leaves
every other client's entry untouched, and no timer remains pending — so an
entry of a client that is not the one the last-armed timer targets is never
cleared purely by elapsed time (calls themselves also never remove another
client's entry). -/
theorem withRateLimit_single_timer :
    ∀ (env : Option String) (now : Nat) (req : Request) (ip ro : Option String)
      (max : MaxArg) (inS : Option Nat) (cors : CorsArg) (onQ : Bool)
      (s : GState),
      (max.noLimit = false → truthyNat inS = true →
        (withRateLimit env now req ip ro max inS cors onQ s).1.timeout
            = some ⟨resolvedClient ip, now + inS.getD 0 * 1000⟩
          ∧ (withRateLimit env now req ip ro max inS cors onQ s).2.1.filter
              Event.isTimerEvent
            = timerTrace s.timeout (resolvedClient ip)
                (now + inS.getD 0 * 1000))
        ∧ (truthyNat inS = false →
            (withRateLimit env now req ip ro max inS cors onQ s).1.timeout
                = s.timeout
              ∧ (withRateLimit env now req ip ro max inS cors onQ s).2.1.filter
                  Event.isTimerEvent = [])
        ∧ (∀ t : Timer, s.timeout = some t →
            qGet (fireTimer s).list t.clientId = none
              ∧ (∀ c : String, c ≠ t.clientId →
                  qGet (fireTimer s).list c = qGet s.list c)
              ∧ (fireTimer s).timeout = none)
        ∧ (max.noLimit = false → ∀ c : String, c ≠ resolvedClient ip →
            qGet (withRateLimit env now req ip ro max inS cors onQ s).1.list c
              = qGet s.list c) := by
  intro env now req ip ro max inS cors onQ s
  exact ⟨fun hmax hins =>
      ⟨wrl_timeout_truthy env now req ip ro max inS cors onQ s hmax hins,
       wrl_timerTrace_truthy env now req ip ro max inS cors onQ s hmax hins⟩,
    fun hins => wrl_frame_falsy env now req ip ro max inS cors onQ s hins,
    fun t ht => fireTimer_spec s t ht,
    fun hmax c hc =>
      wrl_other_clients env now req ip ro max inS cors onQ s hmax c hc⟩

/-- C2 witness: a concrete call (client `10.0.0.1`, `max = 2`,
`windowSeconds = 60`, at `now = 5` ms) over a state whose pending timer was
armed by a different client replaces that timer with the single new one. -/
theorem withRateLimit_single_timer_witness :
    ((MaxArg.num 2).noLimit = false ∧ truthyNat (some 60) = true)
      ∧ (withRateLimit none 5 ⟨1⟩ (some "10.0.0.1") none (.num 2) (some 60)
          .none false { list := [("10.0.0.2", 3)],
                        timeout := some ⟨"10.0.0.2", 40⟩ }).1.timeout
        = some ⟨"10.0.0.1", 60005⟩ := by
  refine ⟨⟨by decide, by decide⟩, ?_⟩
  have h := (withRateLimit_single_timer none 5 ⟨1⟩ (some "10.0.0.1") none
    (.num 2) (some 60) .none false
    { list := [("10.0.0.2", 3)], timeout := some ⟨"10.0.0.2", 40⟩ }).1
    (by decide) (by decide)
  simpa [resolvedClient, orFalsy] using h.1

/-- C3 counterexample: the eviction deadline is not fixed at
`windowSeconds` after the call that created the client's entry.  The entry
for `198.51.100.9` is created at `t = 0` with a 60 s window (deadline
60000 ms), but a second call for the same client at `t = 30000` ms re-arms
the timer to 90000 ms — the deadline was extended within the window,
contradicting the claim. -/
theorem withRateLimit_window_not_from_first_request :
    (withRateLimit none 0 ⟨1⟩ (some "198.51.100.9") none (.num 5) (some 60)
        .none false {}).1.timeout = some ⟨"198.51.100.9", 60000⟩
      ∧ (withRateLimit none 30000 ⟨2⟩ (some "198.51.100.9") none (.num 5)
          (some 60) .none false
          (withRateLimit none 0 ⟨1⟩ (some "198.51.100.9") none (.num 5)
            (some 60) .none false {}).1).1.timeout
        = some ⟨"198.51.100.9", 90000⟩
      ∧ (90000 : Nat) ≠ 60000 := by
  refine ⟨rfl, rfl, by decide⟩

/-- C3 amended: the single pending eviction deadline is `windowSeconds`
after the most recent call that supplied a truthy window, keyed to that
call's client — so later calls for the same client within the window re-arm
the timer and extend the entry's eviction deadline — and an entry is removed
only when the pending timer keyed to it fires: firing removes exactly the
keyed client's entry and leaves every other entry untouched. -/
theorem withRateLimit_deadline_follows_latest_call :
    ∀ (env : Option String) (t0 t1 : Nat) (req1 req2 : Request)
      (ip ro : Option String) (max : MaxArg) (inS : Option Nat)
      (cors : CorsArg) (onQ : Bool) (s : GState),
      max.noLimit = false → truthyNat inS = true →
      (withRateLimit env t1 req2 ip ro max inS cors onQ
          (withRateLimit env t0 req1 ip ro max inS cors onQ s).1).1.timeout
          = some ⟨resolvedClient ip, t1 + inS.getD 0 * 1000⟩
        ∧ (∀ (s' : GState) (t : Timer), s'.timeout = some t →
            qGet (fireTimer s').list t.clientId = none
              ∧ ∀ c : String, c ≠ t.clientId →
                  qGet (fireTimer s').list c = qGet s'.list c) := by
  intro env t0 t1 req1 req2 ip ro max inS cors onQ s hmax hins
  exact ⟨wrl_timeout_truthy env t1 req2 ip ro max inS cors onQ _ hmax hins,
    fun s' t ht => ⟨(fireTimer_spec s' t ht).1, (fireTimer_spec s' t ht).2.1⟩⟩

/-- C3 amended witness: the two-call scenario of the counterexample,
resolved through the amended statement: the deadline after the second call
at `t = 30000` ms with a 60 s window is 90000 ms. -/
theorem withRateLimit_deadline_follows_latest_call_witness :
    ((MaxArg.num 5).noLimit = false ∧ truthyNat (some 60) = true)
      ∧ (withRateLimit none 30000 ⟨2⟩ (some "198.51.100.9") none (.num 5)
          (some 60) .none false
          (withRateLimit none 0 ⟨1⟩ (some "198.51.100.9") none (.num 5)
            (some 60) .none false {}).1).1.timeout
        = some ⟨"198.51.100.9", 90000⟩ := by
  refine ⟨⟨by decide, by decide⟩, ?_⟩
  have h := (withRateLimit_deadline_follows_latest_call none 0 30000 ⟨1⟩ ⟨2⟩
    (some "198.51.100.9") none (.num 5) (some 60) .none false {}
    (by decide) (by decide)).1
  simpa [resolvedClient, orFalsy] using h

/-! ## Rejection-shape lemmas -/

theorem CorsInit_status (env : Option String) (co : Option CORSPolicy)
    (init : Option ResponseInit) :
    ((NextResponse.CorsInit env co init).2).bind (·.status)
      = init.bind (·.status) := by
  cases co <;> simp [NextResponse.CorsInit]

theorem CorsInit_hLookup_other (env : Option String) (co : Option CORSPolicy)
    (init : Option ResponseInit) (k : String)
    (h1 : k ≠ "Access-Control-Allow-Origin")
    (h2 : k ≠ "Access-Control-Allow-Credentials")
    (h3 : k ≠ "Access-Control-Allow-Headers")
    (h4 : k ≠ "Access-Control-Expose-Headers")
    (h5 : k ≠ "Access-Control-Allow-Methods") :
    hLookup ((((NextResponse.CorsInit env co init).2).map (·.headers)).getD [])
        k
      = hLookup ((init.map (·.headers)).getD []) k := by
  cases co with
  | none => rfl
  | some o =>
      simp [NextResponse.CorsInit,
        hLookup_CorsHeaders_other env o _ k h1 h2 h3 h4 h5]

theorem wrl_reject_result (env : Option String) (now : Nat) (req : Request)
    (ip ro : Option String) (m : Nat) (inS : Option Nat) (cors : CorsArg)
    (onQ : Bool) (s : GState) (hm : m ≠ 0)
    (hq : m < (qGet s.list (resolvedClient ip)).getD 0 + 1) :
    (withRateLimit env now req ip ro (.num m) inS cors onQ s).2.2
      = RLResult.rejected
          (NextResponse.new env s.corsOptions
            { body := none,
              init := some
                { status := some 429,
                  headers :=
                    if truthyNat inS then
                      [("Retry-After", toString (inS.getD 0)),
                       ("X-Max-Requests", toString m)]
                    else [] },
              reqOrigin := ro,
              cors :=
                match cors with
                | .none => .none
                | .isTrue => .policy { exposedHeaders := some ["X-Max-Requests"] }
                | .policy p =>
                    .policy { p with
                              exposedHeaders := some
                                (p.exposedHeaders.getD [] ++
                                  ["X-Max-Requests"]) } }).2 := by
  unfold withRateLimit
  have hnl : (MaxArg.num m).noLimit = false := by
    simp [MaxArg.noLimit]; omega
  simp only [hnl, Bool.false_eq_true, if_false, MaxArg.toNat]
  split_ifs with h1 h2 h3 h4 <;>
    first
      | (cases cors <;> rfl)
      | (exfalso; simp only [GState.list] at *; omega)

theorem wrl_admit_result (env : Option String) (now : Nat) (req : Request)
    (ip ro : Option String) (m : Nat) (inS : Option Nat) (cors : CorsArg)
    (onQ : Bool) (s : GState)
    (hq : (qGet s.list (resolvedClient ip)).getD 0 + 1 ≤ m) :
    (withRateLimit env now req ip ro (.num m) inS cors onQ s).2.2
      = RLResult.next req := by
  unfold withRateLimit
  cases hnl : (MaxArg.num m).noLimit
  · simp only [hnl, Bool.false_eq_true, if_false, MaxArg.toNat]
    split_ifs <;> rfl
  · rfl

theorem wrl_trace (env : Option String) (now : Nat) (req : Request)
    (ip ro : Option String) (m : Nat) (inS : Option Nat) (cors : CorsArg)
    (onQ : Bool) (s : GState) (hm : m ≠ 0) :
    (withRateLimit env now req ip ro (.num m) inS cors onQ s).2.1
      = [.resolveIp]
        ++ (if truthyNat inS then
              timerTrace s.timeout (resolvedClient ip)
                (now + inS.getD 0 * 1000)
            else [])
        ++ [.setQuota (resolvedClient ip)
              ((qGet s.list (resolvedClient ip)).getD 0 + 1)]
        ++ (if (qGet s.list (resolvedClient ip)).getD 0 + 1 ≤ m then
              [.nextCall req]
            else
              (if onQ then
                [.quotaReached (resolvedClient ip)
                  (qSet s.list (resolvedClient ip)
                    ((qGet s.list (resolvedClient ip)).getD 0 + 1))]
               else [])
              ++ [.constructResponse]) := by
  unfold withRateLimit
  have hnl : (MaxArg.num m).noLimit = false := by
    simp [MaxArg.noLimit]; omega
  simp only [hnl, Bool.false_eq_true, if_false, MaxArg.toNat]
  cases hto : s.timeout <;>
    split_ifs <;>
    simp_all [timerTrace]

/-- C5: every rejection has status 429 (and is a rejection, not an admitted
call); with a truthy `windowSeconds` the response carries
`Retry-After = windowSeconds` and `X-Max-Requests = max` as strings; with
`windowSeconds` zero or absent both headers are omitted entirely, while the
count is still incremented and the rejection still occurs. -/
theorem withRateLimit_rejection_status_headers :
    ∀ (env : Option String) (now : Nat) (req : Request) (ip ro : Option String)
      (m : Nat) (inS : Option Nat) (cors : CorsArg) (onQ : Bool) (s : GState),
      m ≠ 0 →
      m < (qGet s.list (resolvedClient ip)).getD 0 + 1 →
      (withRateLimit env now req ip ro (.num m) inS cors onQ s).2.2.status
          = some 429
        ∧ (withRateLimit env now req ip ro (.num m) inS cors onQ
            s).2.2.isNext = false
        ∧ (truthyNat inS = true →
            hLookup (withRateLimit env now req ip ro (.num m) inS cors onQ
                s).2.2.headers "Retry-After" = some (toString (inS.getD 0))
              ∧ hLookup (withRateLimit env now req ip ro (.num m) inS cors onQ
                  s).2.2.headers "X-Max-Requests" = some (toString m))
        ∧ (truthyNat inS = false →
            hLookup (withRateLimit env now req ip ro (.num m) inS cors onQ
                s).2.2.headers "Retry-After" = none
              ∧ hLookup (withRateLimit env now req ip ro (.num m) inS cors onQ
                  s).2.2.headers "X-Max-Requests" = none)
        ∧ qGet (withRateLimit env now req ip ro (.num m) inS cors onQ
              s).1.list (resolvedClient ip)
            = some ((qGet s.list (resolvedClient ip)).getD 0 + 1) := by
  intro env now req ip ro m inS cors onQ s hm hq
  rw [wrl_reject_result env now req ip ro m inS cors onQ s hm hq]
  have hown := wrl_own_count env now req ip ro (.num m) inS cors onQ s
    (by simp [MaxArg.noLimit]; omega)
  refine ⟨?_, rfl, ?_, ?_, hown⟩
  · cases cors <;>
      simp [RLResult.status, NextResponse.new, CorsInit_status]
  · intro hins
    constructor <;>
    · cases cors <;>
        simp only [RLResult.headers, NextResponse.new] <;>
        rw [CorsInit_hLookup_other] <;>
        simp [hins, hLookup]
  · intro hins
    constructor <;>
    · cases cors <;>
        simp only [RLResult.headers, NextResponse.new] <;>
        rw [CorsInit_hLookup_other] <;>
        simp [hins, hLookup]

/-- C5 witness: a second call for a client already at its quota of 1, with a
60 s window, rejects with status 429 and `Retry-After: "60"`. -/
theorem withRateLimit_rejection_status_headers_witness :
    ((1 : Nat) ≠ 0
        ∧ 1 < (qGet [("192.0.2.1", 1)]
            (resolvedClient (some "192.0.2.1"))).getD 0 + 1)
      ∧ (withRateLimit none 0 ⟨3⟩ (some "192.0.2.1") none (.num 1) (some 60)
          .none false { list := [("192.0.2.1", 1)] }).2.2.status = some 429
      ∧ hLookup (withRateLimit none 0 ⟨3⟩ (some "192.0.2.1") none (.num 1)
          (some 60) .none false
          { list := [("192.0.2.1", 1)] }).2.2.headers "Retry-After"
        = some (toString 60) := by
  have h := withRateLimit_rejection_status_headers none 0 ⟨3⟩
    (some "192.0.2.1") none 1 (some 60) .none false
    { list := [("192.0.2.1", 1)] } (by decide) (by decide)
  exact ⟨⟨by decide, by decide⟩, h.1, (h.2.2.1 (by decide)).1⟩

/-- C6: on a rejected call with `onQuotaReached` supplied, the callback is
invoked exactly once, with the offending client id and the quota map in
which that client's count has already been incremented past `max`; the
invocation happens after the count write (`setQuota`) and immediately before
the rejection response is constructed; no invocation happens on admitted
calls nor when `max` is absent, zero or unlimited. -/
theorem withRateLimit_onQuotaReached_once :
    ∀ (env : Option String) (now : Nat) (req : Request) (ip ro : Option String)
      (m : Nat) (inS : Option Nat) (cors : CorsArg) (s : GState),
      m ≠ 0 →
      (m < (qGet s.list (resolvedClient ip)).getD 0 + 1 →
        (withRateLimit env now req ip ro (.num m) inS cors true s).2.1
            = [.resolveIp]
              ++ (if truthyNat inS then
                    timerTrace s.timeout (resolvedClient ip)
                      (now + inS.getD 0 * 1000)
                  else [])
              ++ [.setQuota (resolvedClient ip)
                    ((qGet s.list (resolvedClient ip)).getD 0 + 1),
                  .quotaReached (resolvedClient ip)
                    (qSet s.list (resolvedClient ip)
                      ((qGet s.list (resolvedClient ip)).getD 0 + 1)),
                  .constructResponse]
          ∧ ((withRateLimit env now req ip ro (.num m) inS cors true
                s).2.1.filter Event.isQuotaReached).length = 1
          ∧ qGet (qSet s.list (resolvedClient ip)
                ((qGet s.list (resolvedClient ip)).getD 0 + 1))
                (resolvedClient ip)
              = some ((qGet s.list (resolvedClient ip)).getD 0 + 1))
        ∧ ((qGet s.list (resolvedClient ip)).getD 0 + 1 ≤ m →
            (withRateLimit env now req ip ro (.num m) inS cors true
              s).2.1.filter Event.isQuotaReached = [])
        ∧ (∀ max' : MaxArg, max'.noLimit = true →
            (withRateLimit env now req ip ro max' inS cors true
              s).2.1.filter Event.isQuotaReached = []) := by
  intro env now req ip ro m inS cors s hm
  refine ⟨?_, ?_, ?_⟩
  · intro hq
    have hcond : ¬ ((qGet s.list (resolvedClient ip)).getD 0 + 1 ≤ m) := by
      omega
    rw [wrl_trace env now req ip ro m inS cors true s hm, if_neg hcond]
    refine ⟨by simp, ?_, qGet_qSet_self _ _ _⟩
    cases hto : s.timeout <;>
      cases hins : truthyNat inS <;>
      simp [Event.isQuotaReached, timerTrace]
  · intro hq
    rw [wrl_trace env now req ip ro m inS cors true s hm, if_pos hq]
    cases hto : s.timeout <;>
      cases hins : truthyNat inS <;>
      simp [Event.isQuotaReached, timerTrace]
  · intro max' hnl
    unfold withRateLimit
    simp [hnl, Event.isQuotaReached]

/-- C6 witness: a rejected call (client already at quota 1 with `max = 1`)
with the callback supplied invokes it exactly once. -/
theorem withRateLimit_onQuotaReached_once_witness :
    ((1 : Nat) ≠ 0
        ∧ 1 < (qGet [("198.51.100.17", 1)]
            (resolvedClient (some "198.51.100.17"))).getD 0 + 1)
      ∧ ((withRateLimit none 0 ⟨4⟩ (some "198.51.100.17") none (.num 1)
          (some 60) .none true
          { list := [("198.51.100.17", 1)] }).2.1.filter
            Event.isQuotaReached).length = 1 := by
  have h := withRateLimit_onQuotaReached_once none 0 ⟨4⟩
    (some "198.51.100.17") none 1 (some 60) .none
    { list := [("198.51.100.17", 1)] } (by decide)
  exact ⟨⟨by decide, by decide⟩, (h.1 (by decide)).2.1⟩

/-- C7: on a rejected call with a CORS policy, the rejection's
`Access-Control-Expose-Headers` value is exactly the comma-joined
concatenation of the default exposed set, the caller's `exposedHeaders`
list, and `X-Max-Requests` — so it contains every entry of each of those
lists; when the policy is the boolean `true` the caller list defaults to
empty and the header still carries the default set plus `X-Max-Requests`. -/
theorem withRateLimit_cors_expose_headers :
    ∀ (env : Option String) (now : Nat) (req : Request) (ip ro : Option String)
      (m : Nat) (inS : Option Nat) (onQ : Bool) (s : GState) (p : CORSPolicy),
      m ≠ 0 →
      m < (qGet s.list (resolvedClient ip)).getD 0 + 1 →
      hLookup (withRateLimit env now req ip ro (.num m) inS (.policy p) onQ
            s).2.2.headers "Access-Control-Expose-Headers"
          = some (String.intercalate ", "
              (NextResponse.CorsExposedHeaders
                ++ (p.exposedHeaders.getD [] ++ ["X-Max-Requests"])))
        ∧ "X-Max-Requests" ∈ NextResponse.CorsExposedHeaders
            ++ (p.exposedHeaders.getD [] ++ ["X-Max-Requests"])
        ∧ (∀ x ∈ NextResponse.CorsExposedHeaders,
            x ∈ NextResponse.CorsExposedHeaders
              ++ (p.exposedHeaders.getD [] ++ ["X-Max-Requests"]))
        ∧ (∀ x ∈ p.exposedHeaders.getD [],
            x ∈ NextResponse.CorsExposedHeaders
              ++ (p.exposedHeaders.getD [] ++ ["X-Max-Requests"]))
        ∧ hLookup (withRateLimit env now req ip ro (.num m) inS .isTrue onQ
              s).2.2.headers "Access-Control-Expose-Headers"
            = some (String.intercalate ", "
                (NextResponse.CorsExposedHeaders ++ ["X-Max-Requests"])) := by
  intro env now req ip ro m inS onQ s p hm hq
  refine ⟨?_, by simp, fun x hx => by simp [hx], fun x hx => by simp [hx], ?_⟩
  · rw [wrl_reject_result env now req ip ro m inS (.policy p) onQ s hm hq]
    simp [RLResult.headers, NextResponse.new, NextResponse.corsAssign,
      NextResponse.CorsInit, hLookup_CorsHeaders_expose,
      NextResponse.CorsHeadersExposeList]
  · rw [wrl_reject_result env now req ip ro m inS .isTrue onQ s hm hq]
    simp [RLResult.headers, NextResponse.new, NextResponse.corsAssign,
      NextResponse.CorsInit, hLookup_CorsHeaders_expose,
      NextResponse.CorsHeadersExposeList]

/-- C7 witness: with `exposedHeaders: ['X-Custom-Header']`, the rejection's
`Access-Control-Expose-Headers` joins the defaults, the custom entry and
`X-Max-Requests`. -/
theorem withRateLimit_cors_expose_headers_witness :
    ((1 : Nat) ≠ 0
        ∧ 1 < (qGet [("203.0.113.99", 1)]
            (resolvedClient (some "203.0.113.99"))).getD 0 + 1)
      ∧ hLookup (withRateLimit none 0 ⟨5⟩ (some "203.0.113.99") none (.num 1)
          (some 60) (.policy { exposedHeaders := some ["X-Custom-Header"] })
          false { list := [("203.0.113.99", 1)] }).2.2.headers
          "Access-Control-Expose-Headers"
        = some "Connection, Retry-After, Keep-Alive, Date, X-Custom-Header, X-Max-Requests" := by
  have h := withRateLimit_cors_expose_headers none 0 ⟨5⟩ (some "203.0.113.99")
    none 1 (some 60) false { list := [("203.0.113.99", 1)] }
    { exposedHeaders := some ["X-Custom-Header"] } (by decide) (by decide)
  refine ⟨⟨by decide, by decide⟩, ?_⟩
  have h1 := h.1
  simpa [NextResponse.CorsExposedHeaders] using h1

/-- C8: `withRateLimit` never raises for quota exhaustion — whenever the
collaborators `next` and `onQuotaReached` return normally, the call returns
normally (the 429 rejection is an ordinary return value); and any error that
escapes is exactly a collaborator's error, propagated unchanged: it is
`next`'s error or the supplied `onQuotaReached`'s error. -/
theorem withRateLimitE_error_propagation :
    ∀ (Err : Type) (env : Option String) (now : Nat) (req : Request)
      (ip ro : Option String) (max : MaxArg) (inS : Option Nat)
      (cors : CorsArg) (next : Request → Except Err BuiltResponse)
      (onQ : Option (String → QuotaMap → Except Err Unit)) (s : GState),
      ((∀ e : Err, next req ≠ .error e) →
       (∀ (f : String → QuotaMap → Except Err Unit) (e : Err), onQ = some f →
          f (resolvedClient ip)
            (qSet s.list (resolvedClient ip)
              ((qGet s.list (resolvedClient ip)).getD 0 + 1)) ≠ .error e) →
        ∃ resp : BuiltResponse,
          (withRateLimitE Err env now req ip ro max inS cors next onQ s).2
            = .ok resp)
      ∧ (∀ e : Err,
          (withRateLimitE Err env now req ip ro max inS cors next onQ s).2
            = .error e →
          next req = .error e
            ∨ ∃ f : String → QuotaMap → Except Err Unit,
                onQ = some f
                  ∧ f (resolvedClient ip)
                      (qSet s.list (resolvedClient ip)
                        ((qGet s.list (resolvedClient ip)).getD 0 + 1))
                    = .error e) := by
  intro Err env now req ip ro max inS cors next onQ s
  unfold withRateLimitE
  cases hmax : max.noLimit <;>
    simp only [hmax, Bool.false_eq_true, if_false, if_true]
  · split_ifs <;> (try simp only [GState.list]) <;>
      first
        | (constructor
           · intro hn hf
             cases hnext : next req with
             | error e => exact absurd hnext (hn e)
             | ok r => exact ⟨r, rfl⟩
           · intro e he
             exact Or.inl he)
        | (cases honq : onQ with
           | none => exact ⟨fun hn hf => ⟨_, rfl⟩, fun e he => by simp at he⟩
           | some f =>
               cases hf2 : f (resolvedClient ip)
                   (qSet s.list (resolvedClient ip)
                     ((qGet s.list (resolvedClient ip)).getD 0 + 1)) with
               | error e0 =>
                   refine ⟨fun hn hf => absurd hf2 (hf f e0 rfl), ?_⟩
                   intro e he
                   simp only [hf2] at he
                   simp at he
                   exact Or.inr ⟨f, rfl, by rw [hf2, he]⟩
               | ok u =>
                   refine ⟨fun hn hf => ?_, fun e he => ?_⟩
                   · simp only [hf2]
                     exact ⟨_, rfl⟩
                   · simp only [hf2] at he
                     simp at he)
  · constructor
    · intro hn hf
      cases hnext : next req with
      | error e => exact absurd hnext (hn e)
      | ok r => exact ⟨r, rfl⟩
    · intro e he
      exact Or.inl he

/-- C8 witness: a rejected call (quota already consumed) with a non-throwing
`next` and no callback returns `.ok` — the 429 is not an error. -/
theorem withRateLimitE_error_propagation_witness :
    ∃ resp : BuiltResponse,
      (withRateLimitE String none 0 ⟨6⟩ (some "192.0.2.8") none (.num 1)
          none .none (fun _ => .ok {}) none
          { list := [("192.0.2.8", 1)] }).2 = .ok resp := by
  have h := (withRateLimitE_error_propagation String none 0 ⟨6⟩
    (some "192.0.2.8") none (.num 1) none .none (fun _ => .ok {}) none
    { list := [("192.0.2.8", 1)] }).1
  exact h (fun e he => by simp at he) (fun f e hf => by cases hf)

theorem wrl_reject_corsOptions_cleared (env : Option String) (now : Nat)
    (req : Request) (ip ro : Option String) (m : Nat) (inS : Option Nat)
    (cors : CorsArg) (onQ : Bool) (s : GState) (hm : m ≠ 0)
    (hq : m < (qGet s.list (resolvedClient ip)).getD 0 + 1) :
    (withRateLimit env now req ip ro (.num m) inS cors onQ s).1.corsOptions
      = none := by
  unfold withRateLimit
  have hnl : (MaxArg.num m).noLimit = false := by
    simp [MaxArg.noLimit]; omega
  simp only [hnl, Bool.false_eq_true, if_false, MaxArg.toNat]
  split_ifs <;>
    first
      | (exfalso; simp only [GState.list] at *; omega)
      | (cases cors with
         | none =>
             cases hco : s.corsOptions <;>
               simp [NextResponse.new, NextResponse.CorsInit, hco]
         | isTrue =>
             simp [NextResponse.new, NextResponse.corsAssign,
               NextResponse.CorsInit]
         | policy p =>
             simp [NextResponse.new, NextResponse.corsAssign,
               NextResponse.CorsInit])

/-- C10 counterexample: the static `CorsOptions` is reset — not kept — by the
very construction that sets it.  Constructing with a `cors` policy leaves the
static cleared (`none`), and a subsequent construction with no `cors` option
from that state receives no `Access-Control-Allow-Origin` header at all,
refuting both "is never reset" and "every NextResponse constructed afterwards
receives CORS headers derived from that stored policy". -/
theorem NextResponse_cors_not_sticky_counterexample :
    (NextResponse.new none none { cors := CorsArg.policy {} }).1 = none
      ∧ hLookup ((((NextResponse.new none
            (NextResponse.new none none { cors := CorsArg.policy {} }).1
            {}).2.init).map (·.headers)).getD [])
          "Access-Control-Allow-Origin" = none := by
  exact ⟨rfl, rfl⟩

/-- C10 amended: constructing a `NextResponse` with a `cors` option assigns
the class-level static `CorsOptions`, but `CorsInit` consumes it while
building that same response: after computing the CORS headers it resets the
static to `undefined`.  So after every construction the static is cleared;
the CORS decoration (witnessed by `Access-Control-Allow-Origin`) applies to
the response being constructed — and to at most one later response when the
static was set outside a construction: the constructor and the `json`,
`successJson`, `errorJson`, `emptyBody` and `stream` helpers each decorate
exactly when the static is set as they run, consuming it; a helper run with
the static cleared returns its init undecorated.  The rate limiter's
rejection with a `cors` argument is decorated the same way and likewise
leaves the static cleared. -/
theorem NextResponse_cors_consumed :
    ∀ (env : Option String) (st : Option CORSPolicy)
      (props : NextResponse.Props) (o p : CORSPolicy),
      (NextResponse.new env st props).1 = none
        ∧ (props.cors = .policy p →
            (hLookup ((((NextResponse.new env st props).2.init).map
                (·.headers)).getD []) "Access-Control-Allow-Origin").isSome
              = true)
        ∧ (props.cors = .isTrue →
            (hLookup ((((NextResponse.new env st props).2.init).map
                (·.headers)).getD []) "Access-Control-Allow-Origin").isSome
              = true)
        ∧ (props.cors = .none →
            (NextResponse.new env (some o) props).2.init
                = (NextResponse.CorsInit env (some o) props.init).2
              ∧ (hLookup ((((NextResponse.new env (some o) props).2.init).map
                    (·.headers)).getD []) "Access-Control-Allow-Origin").isSome
                  = true)
        ∧ (∀ (b : String) (init : Option ResponseInit),
            (NextResponse.json env (some o) b init).1 = none
              ∧ (hLookup ((((NextResponse.json env (some o) b
                    init).2.init).map (·.headers)).getD [])
                  "Access-Control-Allow-Origin").isSome = true
              ∧ (NextResponse.json env none b init).2.init = init)
        ∧ (∀ (b : String) (init : Option ResponseInit),
            (NextResponse.successJson env (some o) b init).1 = none
              ∧ (hLookup ((((NextResponse.successJson env (some o) b
                    init).2.init).map (·.headers)).getD [])
                  "Access-Control-Allow-Origin").isSome = true)
        ∧ (∀ (msg : String) (est : Option Nat) (init : Option ResponseInit),
            (NextResponse.errorJson env (some o) msg est init).1 = none
              ∧ (hLookup ((((NextResponse.errorJson env (some o) msg est
                    init).2.init).map (·.headers)).getD [])
                  "Access-Control-Allow-Origin").isSome = true)
        ∧ (∀ init : Option ResponseInit,
            (NextResponse.emptyBody env (some o) init).1 = none
              ∧ (hLookup ((((NextResponse.emptyBody env (some o)
                    init).2.init).map (·.headers)).getD [])
                  "Access-Control-Allow-Origin").isSome = true)
        ∧ (∀ init : Option ResponseInit,
            (NextResponse.stream env (some o) init).1 = none
              ∧ (hLookup ((((NextResponse.stream env (some o)
                    init).2.init).map (·.headers)).getD [])
                  "Access-Control-Allow-Origin").isSome = true)
        ∧ (∀ (now : Nat) (req : Request) (ip ro : Option String) (m : Nat)
            (inS : Option Nat) (cors : CorsArg) (onQ : Bool) (s : GState),
            m ≠ 0 → m < (qGet s.list (resolvedClient ip)).getD 0 + 1 →
            (withRateLimit env now req ip ro (.num m) inS cors onQ
                s).1.corsOptions = none
              ∧ (cors ≠ .none →
                  (hLookup ((withRateLimit env now req ip ro (.num m) inS cors
                      onQ s).2.2.headers)
                    "Access-Control-Allow-Origin").isSome = true)) := by
  intro env st props o p
  refine ⟨?_, ?_, ?_, ?_, ?_, ?_, ?_, ?_, ?_, ?_⟩
  · cases st <;> cases hc : props.cors <;>
      simp [NextResponse.new, NextResponse.corsAssign, NextResponse.CorsInit,
        hc]
  · intro hc
    rw [NextResponse.new, hc]
    simp [NextResponse.corsAssign, NextResponse.CorsInit,
      hLookup_CorsHeaders_allowOrigin]
  · intro hc
    rw [NextResponse.new, hc]
    simp [NextResponse.corsAssign, NextResponse.CorsInit,
      hLookup_CorsHeaders_allowOrigin]
  · intro hc
    rw [NextResponse.new, hc]
    refine ⟨rfl, ?_⟩
    simp [NextResponse.CorsInit, hLookup_CorsHeaders_allowOrigin]
  · intro b init
    refine ⟨rfl, ?_, rfl⟩
    simp [NextResponse.json, NextResponse.CorsInit,
      hLookup_CorsHeaders_allowOrigin]
  · intro b init
    refine ⟨rfl, ?_⟩
    simp [NextResponse.successJson, NextResponse.json, NextResponse.CorsInit,
      hLookup_CorsHeaders_allowOrigin]
  · intro msg est init
    refine ⟨rfl, ?_⟩
    simp [NextResponse.errorJson, NextResponse.json, NextResponse.CorsInit,
      hLookup_CorsHeaders_allowOrigin]
  · intro init
    refine ⟨rfl, ?_⟩
    simp [NextResponse.emptyBody, NextResponse.errorJson, NextResponse.json,
      NextResponse.CorsInit, hLookup_CorsHeaders_allowOrigin]
  · intro init
    refine ⟨rfl, ?_⟩
    simp [NextResponse.stream, NextResponse.CorsInit,
      hLookup_CorsHeaders_allowOrigin]
  · intro now req ip ro m inS cors onQ s hm hq
    refine ⟨wrl_reject_corsOptions_cleared env now req ip ro m inS cors onQ s
      hm hq, ?_⟩
    intro hc
    rw [wrl_reject_result env now req ip ro m inS cors onQ s hm hq]
    cases cors with
    | none => exact absurd rfl hc
    | isTrue =>
        simp [RLResult.headers, NextResponse.new, NextResponse.corsAssign,
          NextResponse.CorsInit, hLookup_CorsHeaders_allowOrigin]
    | policy q =>
        simp [RLResult.headers, NextResponse.new, NextResponse.corsAssign,
          NextResponse.CorsInit, hLookup_CorsHeaders_allowOrigin]

/-- C10 amended witness: a construction with a `cors` policy is itself
decorated but leaves the static cleared, so the next no-cors construction is
undecorated; a rejected limiter call with a policy is decorated and also
leaves the static cleared. -/
theorem NextResponse_cors_consumed_witness :
    ((NextResponse.Props.cors { cors := CorsArg.policy {} })
        = CorsArg.policy {}
      ∧ (1 : Nat) ≠ 0
      ∧ 1 < (qGet [("203.0.113.50", 1)]
          (resolvedClient (some "203.0.113.50"))).getD 0 + 1)
      ∧ (hLookup ((((NextResponse.new none none
            { cors := CorsArg.policy {} }).2.init).map (·.headers)).getD [])
          "Access-Control-Allow-Origin").isSome = true
      ∧ (NextResponse.new none none { cors := CorsArg.policy {} }).1 = none
      ∧ (withRateLimit none 0 ⟨7⟩ (some "203.0.113.50") none (.num 1)
          (some 60) (.policy {}) false
          { list := [("203.0.113.50", 1)] }).1.corsOptions = none := by
  have h := NextResponse_cors_consumed none none
    { cors := CorsArg.policy {} } {} {}
  have h2 := (NextResponse_cors_consumed none none {} {} {}).2.2.2.2.2.2.2.2.2
    0 ⟨7⟩ (some "203.0.113.50") none 1 (some 60) (.policy {}) false
    { list := [("203.0.113.50", 1)] } (by decide) (by decide)
  exact ⟨⟨rfl, by decide, by decide⟩, h.2.1 rfl, h.1, h2.1⟩

end NextApi
